import Mathlib

/-!
Verification development for the task query engine of the mcp-vault
repository (`src/mcp_vault/tasks/`).  The Python sources are shallowly
embedded: strings are `List Char`, `datetime.date` is a validated
year/month/day triple with day-number arithmetic for `timedelta`,
`None`-returning functions become `Option`, and the raising
`execute_query` becomes `Except`.  Each definition mirrors one Python
function of the same (or clearly corresponding) name.
-/

namespace MV

/-! ## Python string primitives -/

/-- Characters stripped by Python `str.strip()` (the ASCII whitespace set,
which is all that occurs in this repository) and matched by the regex
class `\s`. -/
def isPyWS (c : Char) : Bool :=
  c = ' ' ∨ c = '\t' ∨ c = '\n' ∨ c = '\r' ∨ c = '\x0b' ∨ c = '\x0c'

/-- Python `str.strip()` on a character list. -/
def pyStripL (l : List Char) : List Char :=
  ((l.dropWhile isPyWS).reverse.dropWhile isPyWS).reverse

/-- Python `str.strip()` on a `String`. -/
def pyStrip (s : String) : String := ⟨pyStripL s.data⟩

/-- Python `str.lower()` (ASCII case folding; all cased characters in the
engine's vocabulary are ASCII). -/
def lowerL (l : List Char) : List Char := l.map Char.toLower

/-- Python `str.split('\n')`: splits on every newline, an empty string
yields one empty piece. -/
def splitNl : List Char → List (List Char)
  | [] => [[]]
  | c :: rest =>
    if c = '\n' then [] :: splitNl rest
    else
      match splitNl rest with
      | h :: t => (c :: h) :: t
      | [] => [[c]]

/-- Decimal digit value of an ASCII digit character. -/
def digitVal (c : Char) : Nat := c.toNat - 48

/-- Continuation of Python `int()` digit parsing: after at least one digit
has been consumed, accept further digits with single underscores allowed
between digit groups. -/
def pyIntDigitsCore : List Char → Nat → Option Nat
  | [], acc => some acc
  | '_' :: c :: rest, acc =>
    if c.isDigit then pyIntDigitsCore rest (acc * 10 + digitVal c) else none
  | ['_'], _ => none
  | c :: rest, acc =>
    if c.isDigit then pyIntDigitsCore rest (acc * 10 + digitVal c) else none

/-- Python `int()` digit-sequence grammar `d+(_d+)*`. -/
def pyIntDigits : List Char → Option Nat
  | [] => none
  | c :: rest =>
    if c.isDigit then pyIntDigitsCore rest (digitVal c) else none

/-- Python `int(s)` on a string: surrounding whitespace, an optional sign,
then digits (with single interior underscores); anything else raises
`ValueError`, modelled as `none`. -/
def pyInt (l : List Char) : Option Int :=
  match pyStripL l with
  | '+' :: rest => (pyIntDigits rest).map Int.ofNat
  | '-' :: rest => (pyIntDigits rest).map (fun n => -(n : Int))
  | rest => (pyIntDigits rest).map Int.ofNat

/-! ## Calendar dates (`datetime.date`) -/

/-- A calendar date; produced only through `mkDate`, which enforces the
`datetime.date` validity checks. -/
structure Date where
  year : Nat
  month : Nat
  day : Nat
deriving DecidableEq, Repr

/-- Gregorian leap-year rule. -/
def isLeapYear (y : Nat) : Bool :=
  (y % 4 = 0 ∧ y % 100 ≠ 0) ∨ y % 400 = 0

/-- Number of days in a month of a given year. -/
def daysInMonth (y m : Nat) : Nat :=
  if m = 2 then (if isLeapYear y then 29 else 28)
  else if m = 4 ∨ m = 6 ∨ m = 9 ∨ m = 11 then 30
  else 31

/-- The `datetime.date(year, month, day)` constructor: validates
`1 <= year <= 9999`, `1 <= month <= 12`, and the day range; raises
`ValueError` (modelled as `none`) otherwise. -/
def mkDate (y m d : Int) : Option Date :=
  if 1 ≤ y ∧ y ≤ 9999 ∧ 1 ≤ m ∧ m ≤ 12 ∧ 1 ≤ d ∧
      d ≤ (daysInMonth y.toNat m.toNat : Int) then
    some ⟨y.toNat, m.toNat, d.toNat⟩
  else none

/-- Day number of a date counted from 0000-03-01 (the civil-from-days
scheme), used to model `timedelta` arithmetic. -/
def toRD (dt : Date) : Nat :=
  let y := if dt.month ≤ 2 then dt.year - 1 else dt.year
  let era := y / 400
  let yoe := y % 400
  let mp := if 2 < dt.month then dt.month - 3 else dt.month + 9
  let doy := (153 * mp + 2) / 5 + dt.day - 1
  let doe := yoe * 365 + yoe / 4 - yoe / 100 + doy
  era * 146097 + doe

/-- Inverse of `toRD`: the date of a given day number. -/
def fromRD (z : Nat) : Date :=
  let era := z / 146097
  let doe := z % 146097
  let yoe := (doe - doe / 1460 + doe / 36524 - doe / 146096) / 365
  let y := yoe + era * 400
  let doy := doe - (365 * yoe + yoe / 4 - yoe / 100)
  let mp := (5 * doy + 2) / 153
  let d := doy - (153 * mp + 2) / 5 + 1
  let m := if mp < 10 then mp + 3 else mp - 9
  if m ≤ 2 then ⟨y + 1, m, d⟩ else ⟨y, m, d⟩

/-- Python `date + timedelta(days = n)`. -/
def addDays (dt : Date) (n : Int) : Date :=
  fromRD ((toRD dt : Int) + n).toNat

/-- Python `date` comparison: lexicographic on (year, month, day). -/
def Date.ltB (a b : Date) : Bool :=
  a.year < b.year ∨ (a.year = b.year ∧ (a.month < b.month ∨
    (a.month = b.month ∧ a.day < b.day)))

/-! ## Date resolver (`date_resolver.py`) -/

/-- The hardcoded `RELATIVE_DATE_MAP`: lowercase phrase to a function of
the reference date. -/
def RELATIVE_DATE_MAP : List (String × (Date → Date)) :=
  [("today", fun ref => ref),
   ("tomorrow", fun ref => addDays ref 1),
   ("yesterday", fun ref => addDays ref (-1)),
   ("in one week", fun ref => addDays ref 7),
   ("in two weeks", fun ref => addDays ref 14)]

/-- The absolute-date branch of `resolve_date`: strip, split on `-` into
exactly three components, `int()` each, build a `date`; any failure is
caught and becomes `none`. -/
def parseAbsoluteDate (l : List Char) : Option Date :=
  match (pyStripL l).splitOn '-' with
  | [y, m, d] =>
    match pyInt y, pyInt m, pyInt d with
    | some yi, some mi, some di => mkDate yi mi di
    | _, _, _ => none
  | _ => none

/-- Model of `resolve_date(date_str, reference_date)`: first the relative-phrase
table under case-insensitive trimmed lookup, then absolute `YYYY-MM-DD`
parsing, else `none`.  The Python default `reference_date = date.today()`
is modelled by always passing the reference explicitly. -/
def resolve_date (l : List Char) (ref : Date) : Option Date :=
  let key : String := ⟨lowerL (pyStripL l)⟩
  match RELATIVE_DATE_MAP.lookup key with
  | some f => some (f ref)
  | none => parseAbsoluteDate l

/-- Model of `date_compare(task_date, operator, target_date)`: `none` never
matches; `before`/`after`/`on` (case-insensitive) are strict less, strict
greater, equality; unknown operators yield `false`. -/
def date_compare (task_date : Option Date) (operator : String) (target : Date) : Bool :=
  match task_date with
  | none => false
  | some d =>
    let op : String := ⟨lowerL operator.data⟩
    if op = "before" then Date.ltB d target
    else if op = "after" then Date.ltB target d
    else if op = "on" then d = target
    else false

/-! ## Task records (`models.py`) -/

/-- The `Task` dataclass.  `source_line`, `file_path` and `line_number`
are provenance only. -/
structure Task where
  status : Char
  description : String
  priority : Option String
  start_date : Option Date
  scheduled_date : Option Date
  due_date : Option Date
  done_date : Option Date
  created_date : Option Date
  source_line : String
  file_path : String
  line_number : Int
deriving DecidableEq, Repr

/-- Model of `Task.is_done`: the status character is exactly `x`. -/
def Task.is_done (t : Task) : Bool := t.status = 'x'

/-- Model of `PRIORITY_HIERARCHY`: lower level means higher priority. -/
def PRIORITY_HIERARCHY : List (String × Nat) :=
  [("highest", 0), ("high", 1), ("medium", 2), ("none", 3), ("low", 4), ("lowest", 5)]

/-- Model of `PRIORITY_HIERARCHY.get(p, 3)`. -/
def priorityLevel (p : String) : Nat :=
  (PRIORITY_HIERARCHY.lookup p).getD 3

/-- Model of `PRIORITY_EMOJI_MAP`. -/
def PRIORITY_EMOJI_MAP : List (Char × String) :=
  [('🔺', "highest"), ('⏫', "high"), ('🔼', "medium"), ('🔽', "low"), ('⏬', "lowest")]

/-! ## Line parser (`parser.py`)

The emoji field regexes are all anchored at the end of the string
(`...$`), so a `search` either fails or finds the unique decomposition of
the string's tail; we model them by reading the reversed string. -/

/-- The five priority glyphs of `PRIORITY_REGEX`. -/
def PRIORITY_EMOJI : List Char := ['🔺', '⏫', '🔼', '🔽', '⏬']

/-- Glyph alternatives of `DONE_DATE_REGEX`. -/
def DONE_EMOJI : List Char := ['✅']

/-- Glyph alternatives of `SCHEDULED_DATE_REGEX`. -/
def SCHEDULED_EMOJI : List Char := ['⏳', '⌛']

/-- Glyph alternatives of `DUE_DATE_REGEX`. -/
def DUE_EMOJI : List Char := ['📅', '📆', '🗓']

/-- Glyph alternatives of `START_DATE_REGEX`. -/
def START_EMOJI : List Char := ['🛫']

/-- Glyph alternatives of `CREATED_DATE_REGEX`. -/
def CREATED_EMOJI : List Char := ['➕']

/-- Model of `PRIORITY_REGEX.search`, on the reversed string: an optional variant
selector U+FE0F at the very end, preceded by a priority glyph.  Returns
the captured glyph and the reversed text before the match. -/
def priorityMatchRev : List Char → Option (Char × List Char)
  | [] => none
  | c :: rest =>
    if c = '\uFE0F' then
      match rest with
      | g :: rest2 => if PRIORITY_EMOJI.contains g then some (g, rest2) else none
      | [] => none
    else if PRIORITY_EMOJI.contains c then some (c, rest) else none

/-- Model of `PRIORITY_REGEX.search(remaining)`: the captured glyph together with
`remaining[:match.start()]`. -/
def priorityMatch (rem : List Char) : Option (Char × List Char) :=
  (priorityMatchRev rem.reverse).map (fun p => (p.1, p.2.reverse))

/-- Read exactly `n` ASCII digits from the front of a reversed string,
returning them in forward order together with the rest. -/
def readRevDigits : Nat → List Char → Option (List Char × List Char)
  | 0, l => some ([], l)
  | n + 1, c :: rest =>
    if c.isDigit then (readRevDigits n rest).map (fun p => (p.1 ++ [c], p.2))
    else none
  | _ + 1, [] => none

/-- A date-field regex (`<glyph>️? *(\d4-\d2-\d2)$`) applied to the
reversed string: the fixed-shape payload, then spaces, then an optional
variant selector, then one of the marker's glyphs.  Returns the captured
payload (forward order) and the reversed text before the match. -/
def dateTokenMatchRev (glyphs : List Char) (rev : List Char) : Option (List Char × List Char) :=
  match readRevDigits 2 rev with
  | none => none
  | some (dd, r1) =>
    match r1 with
    | '-' :: r2 =>
      match readRevDigits 2 r2 with
      | none => none
      | some (mm, r3) =>
        match r3 with
        | '-' :: r4 =>
          match readRevDigits 4 r4 with
          | none => none
          | some (yy, r5) =>
            let r6 := r5.dropWhile (· = ' ')
            let r7 := if r6.head? = some '\uFE0F' then r6.tail else r6
            match r7 with
            | g :: r8 =>
              if glyphs.contains g then some (yy ++ '-' :: mm ++ '-' :: dd, r8)
              else none
            | [] => none
        | _ => none
    | _ => none

/-- A date-field regex `search(remaining)`: the captured payload together
with `remaining[:match.start()]`. -/
def dateTokenMatch (glyphs : List Char) (rem : List Char) : Option (List Char × List Char) :=
  (dateTokenMatchRev glyphs rem.reverse).map (fun p => (p.1, p.2.reverse))

/-- Model of `priority_emoji_to_name`: map the glyph, defaulting to `none` (the
variant selector is already excluded by the capture group). -/
def priority_emoji_to_name (c : Char) : String :=
  (PRIORITY_EMOJI_MAP.lookup c).getD "none"

/-- Model of `parse_date(date_str)`: split on `-` into exactly year, month, day,
`int()` each and validate through the `date` constructor; any failure is
`none`. -/
def parse_date (l : List Char) : Option Date :=
  match l.splitOn '-' with
  | [y, m, d] =>
    match pyInt y, pyInt m, pyInt d with
    | some yi, some mi, some di => mkDate yi mi di
    | _, _, _ => none
  | _ => none

/-- The six field slots accumulated by `extract_emoji_fields`. -/
structure EmojiFields where
  priority : Option String := none
  done_date : Option Date := none
  scheduled_date : Option Date := none
  due_date : Option Date := none
  start_date : Option Date := none
  created_date : Option Date := none
deriving DecidableEq, Repr

/-- One iteration of the `extract_emoji_fields` loop: try each pattern in
the fixed order priority, done, scheduled, due, start, created; the first
whose pattern matches the end of the text *and* whose slot is still
`none` strips the token and records the (possibly failed) parse.  `none`
means no pattern fired, i.e. the loop breaks. -/
def extractStep (f : EmojiFields) (rem : List Char) : Option (EmojiFields × List Char) :=
  match priorityMatch rem, f.priority with
  | some (g, pre), none =>
    some ({ f with priority := some (priority_emoji_to_name g) }, pyStripL pre)
  | _, _ =>
  match dateTokenMatch DONE_EMOJI rem, f.done_date with
  | some (pl, pre), none => some ({ f with done_date := parse_date pl }, pyStripL pre)
  | _, _ =>
  match dateTokenMatch SCHEDULED_EMOJI rem, f.scheduled_date with
  | some (pl, pre), none => some ({ f with scheduled_date := parse_date pl }, pyStripL pre)
  | _, _ =>
  match dateTokenMatch DUE_EMOJI rem, f.due_date with
  | some (pl, pre), none => some ({ f with due_date := parse_date pl }, pyStripL pre)
  | _, _ =>
  match dateTokenMatch START_EMOJI rem, f.start_date with
  | some (pl, pre), none => some ({ f with start_date := parse_date pl }, pyStripL pre)
  | _, _ =>
  match dateTokenMatch CREATED_EMOJI rem, f.created_date with
  | some (pl, pre), none => some ({ f with created_date := parse_date pl }, pyStripL pre)
  | _, _ => none

/-- The `for _ in range(20)` loop of `extract_emoji_fields`. -/
def extractLoop : Nat → EmojiFields → List Char → EmojiFields × List Char
  | 0, f, rem => (f, rem)
  | Nat.succ n, f, rem =>
    if rem = [] then (f, rem)
    else
      match extractStep f rem with
      | some (f2, rem2) => extractLoop n f2 rem2
      | none => (f, rem)

/-- Model of `extract_emoji_fields(content)`: strip, then run the bounded
extraction loop; returns the fields and the remaining description text. -/
def extract_emoji_fields (content : List Char) : EmojiFields × List Char :=
  extractLoop 20 {} (pyStripL content)

/-- The character class `[\s\t>]` of `TASK_REGEX`. -/
def isIndentChar (c : Char) : Bool := isPyWS c ∨ c = '>'

/-- The list-marker alternation `([-*+]|[0-9]+[.)])` of `TASK_REGEX`. -/
def parseListMarker (l : List Char) : Option (List Char) :=
  match l with
  | c :: rest =>
    if c = '-' ∨ c = '*' ∨ c = '+' then some rest
    else if c.isDigit then
      match rest.dropWhile Char.isDigit with
      | d :: rest3 => if d = '.' ∨ d = ')' then some rest3 else none
      | [] => none
    else none
  | [] => none

/-- Model of `TASK_REGEX.match(line)`: optional indentation or blockquote markers,
a list marker, one or more spaces, `[<status>]`, optional spaces, then the
content.  Returns the status character (group 3) and content (group 4). -/
def parseTaskRegex (l : List Char) : Option (Char × List Char) :=
  match parseListMarker (l.dropWhile isIndentChar) with
  | none => none
  | some l2 =>
    match l2 with
    | ' ' :: l3 =>
      match l3.dropWhile (· = ' ') with
      | '[' :: c :: ']' :: l5 =>
        if c = '\n' then none else some (c, l5.dropWhile (· = ' '))
      | _ => none
    | _ => none

/-- Model of `parse_task_line(line, file_path, line_number)`: match `TASK_REGEX`,
reject bracket status characters (wiki links), extract emoji fields, and
build the `Task`. -/
def parse_task_line (line : List Char) (file_path : String) (line_number : Int) : Option Task :=
  match parseTaskRegex line with
  | none => none
  | some (status_char, content) =>
    if status_char = '[' ∨ status_char = ']' then none
    else
      let (fields, description) := extract_emoji_fields content
      some {
        status := status_char
        description := ⟨pyStripL description⟩
        priority := fields.priority
        start_date := fields.start_date
        scheduled_date := fields.scheduled_date
        due_date := fields.due_date
        done_date := fields.done_date
        created_date := fields.created_date
        source_line := ⟨line⟩
        file_path := file_path
        line_number := line_number }

/-! ## Filters (`filters.py`)

The Python class hierarchy is closed in practice; it is embedded as a
tagged variant with one constructor per `Filter` subclass. -/

/-- The filter variants: `StatusFilter`, `DateFilter`, `HappensFilter`,
`PriorityFilter`, `HasFilter`, `AndFilter`, `OrFilter`, `NotFilter`. -/
inductive Filter where
  | status (value : String)
  | dateF (field : String) (operator : String) (target_date : Date)
  | happens (operator : String) (target_date : Date)
  | priority (comparison : String) (target_priority : String)
  | hasF (field : String) (has : Bool)
  | andF (filters : List Filter)
  | orF (filters : List Filter)
  | notF (filter : Filter)

/-- Model of `DateFilter._get_task_date`: field-name dictionary over the four
date-bearing attributes, `None` for anything else. -/
def getTaskDate (field : String) (t : Task) : Option Date :=
  if field = "due" then t.due_date
  else if field = "scheduled" then t.scheduled_date
  else if field = "start" then t.start_date
  else if field = "done" then t.done_date
  else none

/-- Model of `HasFilter._get_task_date`: same dictionary, with `created` and
`cancelled` explicitly wired to `None`. -/
def getTaskDateHas (field : String) (t : Task) : Option Date :=
  if field = "due" then t.due_date
  else if field = "scheduled" then t.scheduled_date
  else if field = "start" then t.start_date
  else if field = "done" then t.done_date
  else if field = "created" then none
  else if field = "cancelled" then none
  else none

mutual

/-- Model of `matches(task)` of each filter variant. -/
def Filter.matches : Filter → Task → Bool
  | .status v, t =>
    if v = "done" then t.is_done
    else if v = "not_done" then !t.is_done
    else false
  | .dateF field op target, t => date_compare (getTaskDate field t) op target
  | .happens op target, t =>
    [t.start_date, t.scheduled_date, t.due_date].any fun td =>
      match td with
      | some d => date_compare (some d) op target
      | none => false
  | .priority comp target, t =>
    let task_priority := t.priority.getD "none"
    let task_level := priorityLevel task_priority
    let target_level := priorityLevel target
    if comp = "is" then task_priority = target
    else if comp = "is_not" then task_priority ≠ target
    else if comp = "above" then task_level < target_level
    else if comp = "below" then target_level < task_level
    else false
  | .hasF field has, t =>
    let td := getTaskDateHas field t
    if has then td.isSome else td.isNone
  | .andF fs, t => matchesAll fs t
  | .orF fs, t => matchesAny fs t
  | .notF f, t => !(f.matches t)

/-- Model of `AndFilter.matches`: `all(f.matches(task) for f in filters)`,
left-to-right. -/
def matchesAll : List Filter → Task → Bool
  | [], _ => true
  | f :: fs, t => f.matches t && matchesAll fs t

/-- Model of `OrFilter.matches`: `any(f.matches(task) for f in filters)`,
left-to-right. -/
def matchesAny : List Filter → Task → Bool
  | [], _ => false
  | f :: fs, t => f.matches t || matchesAny fs t

end

/-! ## Executor (`executor.py`) -/

/-- Model of `apply_filters(tasks, filters)`: successive narrowing, each filter in
list order keeps only the records it matches. -/
def apply_filters (tasks : List Task) (filters : List Filter) : List Task :=
  filters.foldl (fun result f => result.filter fun t => f.matches t) tasks

/-! ## Query parser (`query_parser.py`)

All line patterns are anchored (`^...$`) and compiled with `IGNORECASE`.
Their alternations are prefix-disjoint (no literal of an alternation is a
prefix of a sibling continuing compatibly), so the only regex choice point
needing real backtracking is the greedy group 1 of
`BOOLEAN_EXPR_PATTERN = ^\((.+)\)\s+(AND|OR)\s+\((.+)\)$`, which we model
by trying every closing-parenthesis split point from the right. -/

/-- Case-insensitive literal prefix match: the pattern (given lowercase)
against the input, returning the rest of the input. -/
def ciLit : List Char → List Char → Option (List Char)
  | [], l => some l
  | _ :: _, [] => none
  | p :: ps, c :: cs => if c.toLower = p then ciLit ps cs else none

/-- The regex piece `\s+`: at least one whitespace character, consumed
greedily. -/
def wsThen : List Char → Option (List Char)
  | c :: rest => if isPyWS c then some (rest.dropWhile isPyWS) else none
  | [] => none

/-- The keyword alternation `(AND|OR)` (case-insensitive, tried in
order), returning `group(2).upper()` and the rest. -/
def ciKeyword (t1 : List Char) : Option (String × List Char) :=
  match ciLit "and".data t1 with
  | some r => some ("AND", r)
  | none =>
    match ciLit "or".data t1 with
    | some r => some ("OR", r)
    | none => none

/-- The tail `\s+(AND|OR)\s+\((.+)\)$` of `BOOLEAN_EXPR_PATTERN`, applied
to the text after group 1's closing parenthesis.  Returns the uppercased
operator (`group(2).upper()`) and the group 3 text. -/
def checkTail (t : List Char) : Option (String × List Char) :=
  (wsThen t).bind fun t1 =>
  (ciKeyword t1).bind fun kwt =>
  (wsThen kwt.2).bind fun t3 =>
  match t3 with
  | c :: u =>
    if c = '(' then
      if u.getLast? = some ')' ∧ 2 ≤ u.length then some (kwt.1, u.dropLast)
      else none
    else none
  | [] => none

/-- All decompositions `s = g1 ++ ')' :: t`, in order of increasing `g1`
length. -/
def allSplits : List Char → List (List Char × List Char)
  | [] => []
  | c :: cs =>
    let tailSplits := (allSplits cs).map fun p => (c :: p.1, p.2)
    if c = ')' then ([], cs) :: tailSplits else tailSplits

/-- First split (in the order given) with a nonempty group 1 whose tail
matches `checkTail`. -/
def pickSplit : List (List Char × List Char) → Option (List Char × String × List Char)
  | [] => none
  | (g1, t) :: rest =>
    if g1 = [] then pickSplit rest
    else
      match checkTail t with
      | some (kw, mid) => some (g1, kw, mid)
      | none => pickSplit rest

/-- Model of `BOOLEAN_EXPR_PATTERN.match(line)`: a leading `(`, then the longest
nonempty group 1 whose closing parenthesis is followed by a matching
tail. -/
def splitBool (l : List Char) : Option (List Char × String × List Char) :=
  match l with
  | c :: s => if c = '(' then pickSplit (allSplits s).reverse else none
  | [] => none

/-- The valid priority level names of `parse_priority_clause`. -/
def PRIORITY_NAMES : List String :=
  ["highest", "high", "medium", "low", "lowest", "none"]

/-- Model of `parse_priority_clause(clause)` (clause already lowercased and
stripped): a bare level name, or `not `/`above `/`below ` followed by a
level name. -/
def parse_priority_clause (clause : List Char) : Option Filter :=
  if PRIORITY_NAMES.contains ⟨clause⟩ then some (.priority "is" ⟨clause⟩)
  else if clause.take 4 = "not ".data ∧
      PRIORITY_NAMES.contains ⟨pyStripL (clause.drop 4)⟩ then
    some (.priority "is_not" ⟨pyStripL (clause.drop 4)⟩)
  else if clause.take 6 = "above ".data ∧
      PRIORITY_NAMES.contains ⟨pyStripL (clause.drop 6)⟩ then
    some (.priority "above" ⟨pyStripL (clause.drop 6)⟩)
  else if clause.take 6 = "below ".data ∧
      PRIORITY_NAMES.contains ⟨pyStripL (clause.drop 6)⟩ then
    some (.priority "below" ⟨pyStripL (clause.drop 6)⟩)
  else none

/-- Field alternation of `DATE_FILTER_PATTERN`. -/
def DATE_FIELDS : List String := ["due", "scheduled", "start", "done"]

/-- Operator alternation of the date and happens patterns. -/
def COMPARE_OPS : List String := ["before", "after", "on"]

/-- Field alternation of `HAS_FILTER_PATTERN`. -/
def HAS_FIELDS : List String :=
  ["due", "scheduled", "start", "created", "done", "cancelled"]

/-- Model of `DATE_FILTER_PATTERN.match(line)`:
`^(due|scheduled|start|done)\s+(before|after|on)\s+(.+)$`.  The lowercased
field and operator plus the raw date expression.  (The regex could also
match with a lone whitespace character as group 3 when nothing follows the
operator but whitespace; since such an expression never resolves to a
date the overall `parse_line` result is `None` either way, so it is
modelled as no match.) -/
def matchDateFilter (line : List Char) : Option (String × String × List Char) :=
  DATE_FIELDS.findSome? fun f =>
    (ciLit f.data line).bind fun r1 =>
    (wsThen r1).bind fun r2 =>
    COMPARE_OPS.findSome? fun op =>
      (ciLit op.data r2).bind fun r3 =>
      (wsThen r3).bind fun ds =>
      if ds = [] then none else some (f, op, ds)

/-- Model of `HAPPENS_FILTER_PATTERN.match(line)`:
`^happens\s+(before|after|on)\s+(.+)$`. -/
def matchHappens (line : List Char) : Option (String × List Char) :=
  (ciLit "happens".data line).bind fun r1 =>
  (wsThen r1).bind fun r2 =>
  COMPARE_OPS.findSome? fun op =>
    (ciLit op.data r2).bind fun r3 =>
    (wsThen r3).bind fun ds =>
    if ds = [] then none else some (op, ds)

/-- Model of `HAS_FILTER_PATTERN.match(line)`:
`^(has|no)\s+(<field>)\s+date$`; returns the lowercased field and whether
the line said `has`. -/
def matchHas (line : List Char) : Option (String × Bool) :=
  ["has", "no"].findSome? fun w =>
    (ciLit w.data line).bind fun r1 =>
    (wsThen r1).bind fun r2 =>
    HAS_FIELDS.findSome? fun f =>
      (ciLit f.data r2).bind fun r3 =>
      (wsThen r3).bind fun r4 =>
      (ciLit "date".data r4).bind fun r5 =>
      if r5 = [] then some (f, w == "has") else none

/-- Model of `PRIORITY_FILTER_PATTERN.match(line)`: `^priority\s+is\s+(.+)$`;
returns the raw clause text (group 1). -/
def matchPriority (line : List Char) : Option (List Char) :=
  (ciLit "priority".data line).bind fun r1 =>
  (wsThen r1).bind fun r2 =>
  (ciLit "is".data r2).bind fun r3 =>
  (wsThen r3).bind fun rest =>
  if rest = [] then none else some rest

/-- Model of `parse_line(line)` with explicit recursion fuel.  The recursion of the
boolean branch re-enters `parse_line` on the two operand texts, which
`splitBool` guarantees to be strictly shorter than the line (see
`splitBool_length`), so any fuel exceeding the line length behaves as the
unbounded Python recursion. -/
def parseLineFuel (today : Date) : Nat → List Char → Option Filter
  | 0, _ => none
  | n + 1, l =>
    let line := pyStripL l
    if lowerL line = "done".data then some (.status "done")
    else if lowerL line = "not done".data then some (.status "not_done")
    else
      match matchDateFilter line with
      | some (f, op, ds) =>
        match resolve_date ds today with
        | some d => some (.dateF f op d)
        | none => none
      | none =>
      match matchHappens line with
      | some (op, ds) =>
        match resolve_date ds today with
        | some d => some (.happens op d)
        | none => none
      | none =>
      match matchHas line with
      | some (f, h) => some (.hasF f h)
      | none =>
      match matchPriority line with
      | some rest => parse_priority_clause (pyStripL (lowerL rest))
      | none =>
      match splitBool line with
      | some (g1, kw, g3) =>
        match parseLineFuel today n (pyStripL g1), parseLineFuel today n (pyStripL g3) with
        | some lf, some rf =>
          if kw = "AND" then some (.andF [lf, rf])
          else if kw = "OR" then some (.orF [lf, rf])
          else none
        | _, _ => none
      | none => none

/-- Model of `parse_line(line)`, resolving relative dates against `today` (the
Python code reads `date.today()`; it is threaded explicitly here). -/
def parse_line (today : Date) (l : List Char) : Option Filter :=
  parseLineFuel today (l.length + 1) l

/-- The `Query` dataclass: filters plus an optional aggregated error. -/
structure Query where
  filters : List Filter
  error : Option String := none

/-- One iteration of the `parse_query` loop: skip blank lines, append the
parsed filter or the line's error message. -/
def parseQueryStep (today : Date) (acc : List Filter × List String) (rawLine : List Char) :
    List Filter × List String :=
  let line := pyStripL rawLine
  if line = [] then acc
  else
    match parse_line today line with
    | some f => (acc.1 ++ [f], acc.2)
    | none => (acc.1, acc.2 ++ ["Could not parse line: " ++ (⟨line⟩ : String)])

/-- Model of `parse_query(query_source)`: strip, split into lines, parse each
non-blank line; any error discards all filters and joins the messages
with semicolons. -/
def parse_query (today : Date) (q : List Char) : Query :=
  let lines := splitNl (pyStripL q)
  let fe := lines.foldl (parseQueryStep today) ([], [])
  if fe.2 = [] then { filters := fe.1 }
  else { filters := [], error := some (String.intercalate "; " fe.2) }

/-- Model of `execute_query(tasks, query_source)`: parse, raise `ValueError` on a
parse error (modelled as `Except.error`), otherwise apply the filters. -/
def execute_query (today : Date) (tasks : List Task) (q : List Char) :
    Except String (List Task) :=
  let query := parse_query today q
  match query.error with
  | some err => .error ("Query parse error: " ++ err)
  | none => .ok (apply_filters tasks query.filters)

/-! ## Derived notions used by the statements -/

/-- The non-blank stripped lines that the `parse_query` loop processes,
in order. -/
def processedLines (q : List Char) : List (List Char) :=
  ((splitNl (pyStripL q)).map pyStripL).filter fun l => !l.isEmpty

/-- The processed lines on which `parse_line` fails, in order. -/
def badLines (today : Date) (q : List Char) : List (List Char) :=
  (processedLines q).filter fun l => (parse_line today l).isNone

/-- The error message `parse_query` records for one failing line. -/
def lineErrorMsg (l : List Char) : String :=
  "Could not parse line: " ++ (⟨l⟩ : String)

/-- Two task records agree on every field a filter can read: status,
description, priority and the five optional dates.  Provenance
(`source_line`, `file_path`, `line_number`) is unconstrained. -/
def AgreeSem (t1 t2 : Task) : Prop :=
  t1.status = t2.status ∧ t1.description = t2.description ∧
  t1.priority = t2.priority ∧ t1.start_date = t2.start_date ∧
  t1.scheduled_date = t2.scheduled_date ∧ t1.due_date = t2.due_date ∧
  t1.done_date = t2.done_date ∧ t1.created_date = t2.created_date

example : addDays ⟨2025, 11, 12⟩ 14 = ⟨2025, 11, 26⟩ := by decide
example : addDays ⟨2025, 12, 31⟩ 1 = ⟨2026, 1, 1⟩ := by decide
example : addDays ⟨2025, 1, 1⟩ (-1) = ⟨2024, 12, 31⟩ := by decide
example : addDays ⟨2024, 2, 28⟩ 1 = ⟨2024, 2, 29⟩ := by decide
example : resolve_date "in two weeks".data ⟨2025, 11, 12⟩ = some ⟨2025, 11, 26⟩ := by decide
example : resolve_date "TODAY".data ⟨2025, 11, 12⟩ = some ⟨2025, 11, 12⟩ := by decide
example : resolve_date "2025-13-45".data ⟨2025, 11, 12⟩ = none := by decide
example : pyInt " -51 ".data = some (-51) := by decide
example : pyInt "1_0".data = some 10 := by decide
example : pyInt "1__0".data = none := by decide
example : parse_task_line "- [ ] Buy milk 📅 2025-11-12".data "" 0 =
    some ⟨' ', "Buy milk", none, none, none, some ⟨2025, 11, 12⟩, none, none,
      "- [ ] Buy milk 📅 2025-11-12", "", 0⟩ := by decide
example : parse_task_line "- [[Some Link]]".data "" 0 = none := by decide
example : parseTaskRegex "- [[]".data = some ('[', []) := by decide
example : parse_task_line "- [x] done thing ✅ 2025-01-02".data "f.md" 3 =
    some ⟨'x', "done thing", none, none, none, none, some ⟨2025, 1, 2⟩, none,
      "- [x] done thing ✅ 2025-01-02", "f.md", 3⟩ := by decide
example :
    parse_task_line "- [ ] Complex task 🔺 🛫 2025-11-12 ⏳ 2025-11-13 📅 2025-11-15".data "" 0 =
    some ⟨' ', "Complex task", some "highest", some ⟨2025, 11, 12⟩,
      some ⟨2025, 11, 13⟩, some ⟨2025, 11, 15⟩, none, none,
      "- [ ] Complex task 🔺 🛫 2025-11-12 ⏳ 2025-11-13 📅 2025-11-15", "", 0⟩ := by decide
example : extract_emoji_fields "Task ✅ 2025-13-45".data =
    ({ done_date := none }, "Task".data) := by decide
example : extract_emoji_fields "Task ✅ 2020-01-01 ✅ 2025-13-45".data =
    ({ done_date := some ⟨2020, 1, 1⟩ }, "Task".data) := by decide
example : parse_date "2025-13-45".data = none := by decide
example : parse_line ⟨2025, 11, 12⟩ "not done".data = some (.status "not_done") := rfl
example : parse_line ⟨2025, 11, 12⟩ "due before 2025-11-15".data =
    some (.dateF "due" "before" ⟨2025, 11, 15⟩) := rfl
example : parse_line ⟨2025, 11, 12⟩ "happens on today".data =
    some (.happens "on" ⟨2025, 11, 12⟩) := rfl
example : parse_line ⟨2025, 11, 12⟩ "has due date".data = some (.hasF "due" true) := rfl
example : parse_line ⟨2025, 11, 12⟩ "no scheduled date".data =
    some (.hasF "scheduled" false) := rfl
example : parse_line ⟨2025, 11, 12⟩ "priority is above none".data =
    some (.priority "above" "none") := rfl
example : parse_line ⟨2025, 11, 12⟩ "(not done) AND (has due date)".data =
    some (.andF [.status "not_done", .hasF "due" true]) := rfl
example : parse_line ⟨2025, 11, 12⟩ "(due after tomorrow) AND (due before in two weeks)".data =
    some (.andF [.dateF "due" "after" ⟨2025, 11, 13⟩,
      .dateF "due" "before" ⟨2025, 11, 26⟩]) := rfl
example : parse_line ⟨2025, 11, 12⟩ "invalid line here".data = none := rfl
example : parse_query ⟨2025, 11, 12⟩ "done\ninvalid line here\nhappens on today".data =
    ⟨[], some "Could not parse line: invalid line here"⟩ := rfl
example : parse_query ⟨2025, 11, 12⟩ "   ".data = ⟨[], none⟩ := rfl
example : parse_query ⟨2025, 11, 12⟩ "not done\nhappens before today".data =
    ⟨[.status "not_done", .happens "before" ⟨2025, 11, 12⟩], none⟩ := rfl

/-! ## Executor lemmas -/

theorem matchesAll_eq_all (fs : List Filter) (t : Task) :
    matchesAll fs t = fs.all fun f => f.matches t := by
  induction fs with
  | nil => rfl
  | cons f fs ih => simp [matchesAll, ih]

theorem matchesAny_eq_any (fs : List Filter) (t : Task) :
    matchesAny fs t = fs.any fun f => f.matches t := by
  induction fs with
  | nil => rfl
  | cons f fs ih => simp [matchesAny, ih]

/-- Successive narrowing computes one `filter` by the conjunction of all
the filters. -/
theorem apply_filters_eq_filter (tasks : List Task) (filters : List Filter) :
    apply_filters tasks filters =
      tasks.filter fun t => filters.all fun f => f.matches t := by
  induction filters generalizing tasks with
  | nil => simp [apply_filters]
  | cons f fs ih =>
    show apply_filters (tasks.filter fun t => f.matches t) fs = _
    rw [ih, List.filter_filter]
    simp [List.all_cons, Bool.and_comm]

/-- The value of `List.all` depends only on the multiset of elements. -/
theorem all_eq_of_perm {fs fs' : List Filter} (h : fs.Perm fs') (p : Filter → Bool) :
    fs.all p = fs'.all p := by
  rw [Bool.eq_iff_iff, List.all_eq_true, List.all_eq_true]
  exact ⟨fun H x hx => H x (h.mem_iff.mpr hx), fun H x hx => H x (h.mem_iff.mp hx)⟩

/-- C2: `execute(tasks, filters)` (successive narrowing) returns exactly
the sublist of the input tasks on which every filter's `matches` is true,
preserving the input's relative order with no reordering or
deduplication (a `List.filter`, hence a sublist). -/
theorem c2_execute_conjunctive_stable (tasks : List Task) (filters : List Filter) :
    apply_filters tasks filters =
      tasks.filter (fun t => filters.all fun f => f.matches t) ∧
    (apply_filters tasks filters).Sublist tasks := by
  refine ⟨apply_filters_eq_filter tasks filters, ?_⟩
  rw [apply_filters_eq_filter]
  exact List.filter_sublist tasks

/-- C5: execution is idempotent: filtering an already-filtered list with
the same filter list changes nothing. -/
theorem c5_execute_idempotent (tasks : List Task) (filters : List Filter) :
    apply_filters (apply_filters tasks filters) filters =
      apply_filters tasks filters := by
  simp only [apply_filters_eq_filter, List.filter_filter, Bool.and_self]

/-- C6: execution is independent of the order of the filter list: any
permutation of the filters yields the same result list. -/
theorem c6_execute_order_independent (tasks : List Task)
    (fs fs' : List Filter) (h : fs.Perm fs') :
    apply_filters tasks fs = apply_filters tasks fs' := by
  rw [apply_filters_eq_filter, apply_filters_eq_filter]
  have hp : (fun t => fs.all fun f => f.matches t) =
      fun t => fs'.all fun f => f.matches t :=
    funext fun t => all_eq_of_perm h _
  rw [hp]

/-- Sample task used by witness instantiations. -/
def sampleTask (st : Char) (pr : Option String) (due : Option Date) : Task :=
  { status := st, description := "sample", priority := pr,
    start_date := none, scheduled_date := none, due_date := due,
    done_date := none, created_date := none,
    source_line := "", file_path := "", line_number := 0 }

/-- Witness for C6 at a concrete two-filter swap. -/
theorem c6_witness :
    apply_filters [sampleTask 'x' none (some ⟨2025, 1, 1⟩), sampleTask ' ' none none]
        [Filter.status "done", Filter.hasF "due" true] =
      apply_filters [sampleTask 'x' none (some ⟨2025, 1, 1⟩), sampleTask ' ' none none]
        [Filter.hasF "due" true, Filter.status "done"] :=
  c6_execute_order_independent _ _ _ (List.Perm.swap _ _ _)

/-! ## Provenance independence -/

theorem getTaskDate_agree {t1 t2 : Task} (h : AgreeSem t1 t2) (field : String) :
    getTaskDate field t1 = getTaskDate field t2 := by
  obtain ⟨-, -, -, h4, h5, h6, h7, -⟩ := h
  simp only [getTaskDate, h4, h5, h6, h7]

theorem getTaskDateHas_agree {t1 t2 : Task} (h : AgreeSem t1 t2) (field : String) :
    getTaskDateHas field t1 = getTaskDateHas field t2 := by
  obtain ⟨-, -, -, h4, h5, h6, h7, -⟩ := h
  simp only [getTaskDateHas, h4, h5, h6, h7]

mutual

theorem matches_agree : ∀ (f : Filter) (t1 t2 : Task), AgreeSem t1 t2 →
    f.matches t1 = f.matches t2
  | .status v, t1, t2, h => by
    obtain ⟨h1, -⟩ := h
    simp only [Filter.matches, Task.is_done, h1]
  | .dateF field op target, t1, t2, h => by
    simp only [Filter.matches, getTaskDate_agree h field]
  | .happens op target, t1, t2, h => by
    obtain ⟨-, -, -, h4, h5, h6, -, -⟩ := h
    simp only [Filter.matches, h4, h5, h6]
  | .priority comp target, t1, t2, h => by
    obtain ⟨-, -, h3, -⟩ := h
    simp only [Filter.matches, h3]
  | .hasF field has, t1, t2, h => by
    simp only [Filter.matches, getTaskDateHas_agree h field]
  | .andF fs, t1, t2, h => by
    simp only [Filter.matches]
    exact matchesAll_agree fs t1 t2 h
  | .orF fs, t1, t2, h => by
    simp only [Filter.matches]
    exact matchesAny_agree fs t1 t2 h
  | .notF f, t1, t2, h => by
    simp only [Filter.matches, matches_agree f t1 t2 h]

theorem matchesAll_agree : ∀ (fs : List Filter) (t1 t2 : Task), AgreeSem t1 t2 →
    matchesAll fs t1 = matchesAll fs t2
  | [], _, _, _ => rfl
  | f :: fs, t1, t2, h => by
    simp only [matchesAll, matches_agree f t1 t2 h, matchesAll_agree fs t1 t2 h]

theorem matchesAny_agree : ∀ (fs : List Filter) (t1 t2 : Task), AgreeSem t1 t2 →
    matchesAny fs t1 = matchesAny fs t2
  | [], _, _, _ => rfl
  | f :: fs, t1, t2, h => by
    simp only [matchesAny, matches_agree f t1 t2 h, matchesAny_agree fs t1 t2 h]

end

/-- C9: filter evaluation never depends on provenance: every filter
variant gives the same verdict on two task records that agree on status,
description, priority and the five optional dates, whatever their
`source_line`, `file_path` and `line_number`. -/
theorem c9_filters_ignore_provenance (f : Filter) (t1 t2 : Task)
    (hstatus : t1.status = t2.status)
    (hdescription : t1.description = t2.description)
    (hpriority : t1.priority = t2.priority)
    (hstart : t1.start_date = t2.start_date)
    (hscheduled : t1.scheduled_date = t2.scheduled_date)
    (hdue : t1.due_date = t2.due_date)
    (hdone : t1.done_date = t2.done_date)
    (hcreated : t1.created_date = t2.created_date) :
    f.matches t1 = f.matches t2 :=
  matches_agree f t1 t2
    ⟨hstatus, hdescription, hpriority, hstart, hscheduled, hdue, hdone, hcreated⟩

/-- A task with full provenance fields. -/
def provTask1 : Task :=
  { status := 'x', description := "w", priority := some "high",
    start_date := none, scheduled_date := some ⟨2025, 3, 4⟩,
    due_date := some ⟨2025, 3, 9⟩, done_date := none, created_date := none,
    source_line := "- [x] w", file_path := "a.md", line_number := 1 }

/-- The same record with entirely different provenance. -/
def provTask2 : Task :=
  { provTask1 with
    source_line := "something else"
    file_path := "deep/b.md"
    line_number := 99 }

/-- Witness for C9: a compound filter evaluated on two records differing
only in provenance. -/
theorem c9_witness :
    (Filter.andF [Filter.status "done",
        Filter.orF [Filter.hasF "due" true, Filter.notF (Filter.priority "is" "low")]]).matches
        provTask1 =
      (Filter.andF [Filter.status "done",
        Filter.orF [Filter.hasF "due" true, Filter.notF (Filter.priority "is" "low")]]).matches
        provTask2 :=
  c9_filters_ignore_provenance _ provTask1 provTask2 rfl rfl rfl rfl rfl rfl rfl rfl

/-! ## Priority ordering -/

/-- C7: under the fixed hierarchy highest=0, high=1, medium=2, none=3,
low=4, lowest=5, the `above medium` comparison (strictly smaller level)
holds exactly for priorities highest and high, and `below medium`
(strictly greater level) exactly for the none level (absent or the name
`none`), low and lowest. -/
theorem c7_priority_above_below_medium (t : Task)
    (h : t.priority = none ∨ t.priority = some "highest" ∨ t.priority = some "high" ∨
      t.priority = some "medium" ∨ t.priority = some "low" ∨ t.priority = some "lowest" ∨
      t.priority = some "none") :
    ((Filter.priority "above" "medium").matches t = true ↔
      (t.priority = some "highest" ∨ t.priority = some "high")) ∧
    ((Filter.priority "below" "medium").matches t = true ↔
      (t.priority = none ∨ t.priority = some "none" ∨
        t.priority = some "low" ∨ t.priority = some "lowest")) := by
  rcases h with h | h | h | h | h | h | h <;>
    · simp only [Filter.matches, h]
      decide

/-- Witness for C7 at a concrete task of priority `high`. -/
theorem c7_witness :
    (Filter.priority "above" "medium").matches (sampleTask ' ' (some "high") none) = true ∧
    (Filter.priority "below" "medium").matches (sampleTask ' ' (some "high") none) = false := by
  have h := c7_priority_above_below_medium (sampleTask ' ' (some "high") none) (by decide)
  refine ⟨h.1.mpr (by decide), ?_⟩
  have h2 := h.2
  revert h2
  decide

/-! ## Query-failure atomicity -/

/-- Unrolling the `parse_query` loop: the accumulated filters are the
successfully parsed non-blank lines in order, the accumulated errors are
one message per failing non-blank line in order. -/
theorem foldl_parseQueryStep (today : Date) :
    ∀ (lines : List (List Char)) (fs : List Filter) (es : List String),
    lines.foldl (parseQueryStep today) (fs, es) =
      (fs ++ ((lines.map pyStripL).filter fun l => !l.isEmpty).filterMap (parse_line today),
       es ++ ((((lines.map pyStripL).filter fun l => !l.isEmpty).filter
         fun l => (parse_line today l).isNone).map lineErrorMsg)) := by
  intro lines
  induction lines with
  | nil => intro fs es; simp
  | cons a lines ih =>
    intro fs es
    rw [List.foldl_cons]
    by_cases h0 : pyStripL a = []
    · rw [show parseQueryStep today (fs, es) a = (fs, es) from by
        simp [parseQueryStep, h0]]
      rw [ih]
      simp [h0]
    · cases h1 : parse_line today (pyStripL a) with
      | some f =>
        rw [show parseQueryStep today (fs, es) a = (fs ++ [f], es) from by
          simp [parseQueryStep, h0, h1]]
        rw [ih]
        simp [h0, h1]
      | none =>
        rw [show parseQueryStep today (fs, es) a =
            (fs, es ++ [lineErrorMsg (pyStripL a)]) from by
          simp [parseQueryStep, h0, h1, lineErrorMsg]]
        rw [ih]
        simp [h0, h1]

/-- Closed form of `parse_query`: a successful filter list when no
processed line fails, otherwise no filters and the aggregated
semicolon-joined error. -/
theorem parse_query_eq (today : Date) (q : List Char) :
    parse_query today q =
      if badLines today q = [] then
        { filters := (processedLines q).filterMap (parse_line today), error := none }
      else
        { filters := [],
          error := some (String.intercalate "; "
            ((badLines today q).map lineErrorMsg)) } := by
  by_cases hb : badLines today q = []
  · simp only [parse_query, foldl_parseQueryStep, List.nil_append]
    simp only [badLines, processedLines] at hb ⊢
    simp [hb]
  · simp only [parse_query, foldl_parseQueryStep, List.nil_append]
    simp only [badLines, processedLines] at hb ⊢
    rw [if_neg (fun hmap => hb (List.map_eq_nil_iff.mp hmap)), if_neg hb]

/-- C1: if any non-blank line of the query fails to parse, `parse_query`
returns an empty filter list and the single aggregated error that joins
one `Could not parse line: ...` entry per failing line with semicolons;
`execute_query` on such a query raises instead of returning any task
list; and in general success and error are mutually exclusive (an error
always comes with an empty filter list). -/
theorem c1_query_failure_atomic (today : Date) (q : List Char)
    (h : badLines today q ≠ []) :
    parse_query today q =
      { filters := [],
        error := some (String.intercalate "; "
          ((badLines today q).map lineErrorMsg)) } ∧
    (∀ tasks, execute_query today tasks q =
      .error ("Query parse error: " ++
        String.intercalate "; " ((badLines today q).map lineErrorMsg))) ∧
    (∀ q' : List Char,
      (parse_query today q').error = none ∨ (parse_query today q').filters = []) := by
  have hq := parse_query_eq today q
  rw [if_neg h] at hq
  refine ⟨hq, fun tasks => by simp [execute_query, hq], fun q' => ?_⟩
  have hq' := parse_query_eq today q'
  by_cases hb : badLines today q' = [] <;> simp [hb] at hq' <;> simp [hq']

/-- Witness for C1 at the spec's own example query. -/
theorem c1_witness :
    badLines ⟨2025, 11, 12⟩ "done\ninvalid line here\nhappens on today".data ≠ [] ∧
    parse_query ⟨2025, 11, 12⟩ "done\ninvalid line here\nhappens on today".data =
      { filters := [], error := some "Could not parse line: invalid line here" } ∧
    execute_query ⟨2025, 11, 12⟩ []
        "done\ninvalid line here\nhappens on today".data =
      .error "Query parse error: Could not parse line: invalid line here" := by
  have h := c1_query_failure_atomic ⟨2025, 11, 12⟩
    "done\ninvalid line here\nhappens on today".data (by decide)
  refine ⟨by decide, ?_, ?_⟩
  · rw [h.1]; rfl
  · rw [h.2.1 []]; rfl

/-! ## The boolean-expression split shrinks the line

These lemmas justify the fuel bound of `parseLineFuel`: both operand
texts produced by `splitBool` are strictly shorter than the line, so a
fuel exceeding the line length is never exhausted
(`parseLineFuel_irrel`). -/

theorem dropWhile_length_le (p : Char → Bool) : ∀ l : List Char,
    (l.dropWhile p).length ≤ l.length := by
  intro l
  induction l with
  | nil => simp
  | cons c cs ih =>
    rw [List.dropWhile_cons]
    split
    · simp only [List.length_cons]
      omega
    · exact Nat.le_refl _

theorem ciLit_length : ∀ (p l r : List Char), ciLit p l = some r → r.length ≤ l.length := by
  intro p
  induction p with
  | nil =>
    intro l r h
    simp only [ciLit, Option.some.injEq] at h
    subst h
    exact Nat.le_refl _
  | cons p ps ih =>
    intro l r h
    cases l with
    | nil => simp [ciLit] at h
    | cons c cs =>
      simp only [ciLit] at h
      split at h
      · have := ih cs r h
        simp only [List.length_cons]
        omega
      · simp at h

theorem wsThen_length : ∀ (l r : List Char), wsThen l = some r → r.length < l.length := by
  intro l r h
  cases l with
  | nil => simp [wsThen] at h
  | cons c cs =>
    simp only [wsThen] at h
    split at h
    · simp only [Option.some.injEq] at h
      subst h
      have := dropWhile_length_le isPyWS cs
      simp only [List.length_cons]
      omega
    · simp at h

theorem ciKeyword_length : ∀ (t1 : List Char) (kw : String) (t2 : List Char),
    ciKeyword t1 = some (kw, t2) → t2.length ≤ t1.length := by
  intro t1 kw t2 h
  simp only [ciKeyword] at h
  cases h1 : ciLit "and".data t1 with
  | some r =>
    rw [h1] at h
    simp only [Option.some.injEq, Prod.mk.injEq] at h
    obtain ⟨-, h2⟩ := h
    subst h2
    exact ciLit_length _ _ _ h1
  | none =>
    rw [h1] at h
    cases h2 : ciLit "or".data t1 with
    | some r =>
      rw [h2] at h
      simp only [Option.some.injEq, Prod.mk.injEq] at h
      obtain ⟨-, h3⟩ := h
      subst h3
      exact ciLit_length _ _ _ h2
    | none => rw [h2] at h; simp at h

theorem checkTail_length : ∀ (t : List Char) (kw : String) (mid : List Char),
    checkTail t = some (kw, mid) → mid.length < t.length := by
  intro t kw mid h
  simp only [checkTail, Option.bind_eq_some] at h
  obtain ⟨t1, h1, ⟨kw2, t2⟩, h2, t3, h3, h4⟩ := h
  cases t3 with
  | nil => simp at h4
  | cons c u =>
    simp only at h4
    split at h4
    · split at h4
      · simp only [Option.some.injEq, Prod.mk.injEq] at h4
        obtain ⟨-, h5⟩ := h4
        have l1 := wsThen_length t t1 h1
        have l2 := ciKeyword_length t1 kw2 t2 h2
        have l3 := wsThen_length t2 (c :: u) h3
        have l4 : mid.length ≤ u.length := by
          rw [← h5]
          have := List.length_dropLast u
          omega
        simp only [List.length_cons] at l3
        omega
      · simp at h4
    · simp at h4

theorem allSplits_decomp : ∀ (s g1 t : List Char),
    (g1, t) ∈ allSplits s → s = g1 ++ ')' :: t := by
  intro s
  induction s with
  | nil => intro g1 t h; simp [allSplits] at h
  | cons c cs ih =>
    intro g1 t h
    simp only [allSplits] at h
    have hmap : (g1, t) ∈ (allSplits cs).map (fun p => (c :: p.1, p.2)) →
        c :: cs = g1 ++ ')' :: t := by
      intro hm
      simp only [List.mem_map] at hm
      obtain ⟨⟨a, b⟩, hab, heq⟩ := hm
      simp only [Prod.mk.injEq] at heq
      obtain ⟨hg, ht⟩ := heq
      subst hg; subst ht
      rw [ih a b hab]
      rfl
    split at h
    · rcases List.mem_cons.mp h with h | h
      · simp only [Prod.mk.injEq] at h
        obtain ⟨hg, ht⟩ := h
        subst hg; subst ht
        rename_i hc
        rw [hc]
        rfl
      · exact hmap h
    · exact hmap h

theorem pickSplit_spec : ∀ (L : List (List Char × List Char)) (g1 : List Char)
    (kw : String) (mid : List Char), pickSplit L = some (g1, kw, mid) →
    ∃ t, (g1, t) ∈ L ∧ checkTail t = some (kw, mid) := by
  intro L
  induction L with
  | nil => intro g1 kw mid h; simp [pickSplit] at h
  | cons p rest ih =>
    intro g1 kw mid h
    obtain ⟨a, b⟩ := p
    simp only [pickSplit] at h
    split at h
    · obtain ⟨t, ht, hc⟩ := ih _ _ _ h
      exact ⟨t, List.mem_cons_of_mem _ ht, hc⟩
    · cases hct : checkTail b with
      | some kwmid =>
        obtain ⟨kw2, mid2⟩ := kwmid
        rw [hct] at h
        simp only [Option.some.injEq, Prod.mk.injEq] at h
        obtain ⟨hg, hk, hm⟩ := h
        subst hg; subst hk; subst hm
        exact ⟨b, List.mem_cons_self _ _, hct⟩
      | none =>
        rw [hct] at h
        obtain ⟨t, ht, hc⟩ := ih _ _ _ h
        exact ⟨t, List.mem_cons_of_mem _ ht, hc⟩

theorem splitBool_length : ∀ (l g1 : List Char) (kw : String) (g3 : List Char),
    splitBool l = some (g1, kw, g3) → g1.length < l.length ∧ g3.length < l.length := by
  intro l g1 kw g3 h
  cases l with
  | nil => simp [splitBool] at h
  | cons c s =>
    simp only [splitBool] at h
    split at h
    · obtain ⟨t, ht, hc⟩ := pickSplit_spec _ _ _ _ h
      rw [List.mem_reverse] at ht
      have hdec := allSplits_decomp s g1 t ht
      have hct := checkTail_length t kw g3 hc
      have hlen : s.length = g1.length + 1 + t.length := by
        rw [hdec]
        simp [List.length_append]
        omega
      simp only [List.length_cons]
      omega
    · simp at h

theorem pyStripL_length (l : List Char) : (pyStripL l).length ≤ l.length := by
  have h1 := dropWhile_length_le isPyWS l
  have h2 := dropWhile_length_le isPyWS (l.dropWhile isPyWS).reverse
  simp only [pyStripL, List.length_reverse] at h2 ⊢
  omega

/-- Any fuel exceeding the line length makes `parseLineFuel` behave as
the unbounded Python recursion: the result is independent of the exact
fuel. -/
theorem parseLineFuel_irrel (today : Date) :
    ∀ (n m : Nat) (l : List Char), l.length < n → l.length < m →
    parseLineFuel today n l = parseLineFuel today m l := by
  intro n
  induction n with
  | zero => intro m l h1 h2; exact absurd h1 (Nat.not_lt_zero _)
  | succ n ih =>
    intro m l h1 h2
    cases m with
    | zero => exact absurd h2 (Nat.not_lt_zero _)
    | succ m =>
      simp only [parseLineFuel]
      split
      · rfl
      split
      · rfl
      split
      · rfl
      split
      · rfl
      split
      · rfl
      split
      · rfl
      split
      · rename_i g1 kw g3 hsb
        have hlen := splitBool_length (pyStripL l) g1 kw g3 hsb
        have hsl := pyStripL_length l
        have hs1 := pyStripL_length g1
        have hs3 := pyStripL_length g3
        rw [ih m (pyStripL g1) (by omega) (by omega),
          ih m (pyStripL g3) (by omega) (by omega)]
      · rfl

/-! ## Line-parser claims -/

/-- C3: the multi-field example line parses to the record with
description `Complex task`, priority highest, start 2025-11-12, scheduled
2025-11-13 and due 2025-11-15 (the trailing tokens are extracted
right-to-left in the fixed priority order and no other field is set). -/
theorem c3_multi_field_extraction :
    parse_task_line
        "- [ ] Complex task 🔺 🛫 2025-11-12 ⏳ 2025-11-13 📅 2025-11-15".data "" 0 =
      some { status := ' ', description := "Complex task",
             priority := some "highest", start_date := some ⟨2025, 11, 12⟩,
             scheduled_date := some ⟨2025, 11, 13⟩, due_date := some ⟨2025, 11, 15⟩,
             done_date := none, created_date := none,
             source_line := "- [ ] Complex task 🔺 🛫 2025-11-12 ⏳ 2025-11-13 📅 2025-11-15",
             file_path := "", line_number := 0 } := by decide

/-- C4: whenever the checkbox regex matches with a bracket status
character, `parse_task_line` yields no record; and the wiki-link-like
line `- [[Some Link]]` yields no record. -/
theorem c4_bracket_status_rejected :
    (∀ (l : List Char) (fp : String) (n : Int) (c : Char) (content : List Char),
      parseTaskRegex l = some (c, content) → (c = '[' ∨ c = ']') →
      parse_task_line l fp n = none) ∧
    parse_task_line "- [[Some Link]]".data "" 0 = none := by
  refine ⟨?_, by decide⟩
  intro l fp n c content hre hc
  rcases hc with hc | hc <;> simp [parse_task_line, hre, hc]

/-- Witness for C4: `- [[]` is matched by the checkbox regex with status
character `[`, and is rejected. -/
theorem c4_witness : parse_task_line "- [[]".data "" 0 = none :=
  c4_bracket_status_rejected.1 "- [[]".data "" 0 '[' [] (by decide) (Or.inl rfl)

/-- C10: a trailing date marker whose digit-shaped payload is an
impossible calendar date is still stripped from the description while the
field stays absent, so a second marker of the same type further left can
afterwards fill the slot; with a successfully parsed (valid) payload the
slot is filled and the earlier marker stays embedded in the description. -/
theorem c10_invalid_date_token_slot_stays_empty :
    parse_date "2025-13-45".data = none ∧
    extract_emoji_fields "Task ✅ 2025-13-45".data = ({ done_date := none }, "Task".data) ∧
    extract_emoji_fields "Task ✅ 2020-01-01 ✅ 2025-13-45".data =
      ({ done_date := some ⟨2020, 1, 1⟩ }, "Task".data) ∧
    extract_emoji_fields "Task ✅ 2020-01-01 ✅ 2021-02-02".data =
      ({ done_date := some ⟨2021, 2, 2⟩ }, "Task ✅ 2020-01-01".data) := by
  exact ⟨by decide, by decide, by decide, by decide⟩

/-! ## Date-resolver claim -/

/-- C8: `resolve_date` maps each relative phrase to the documented offset
of the reference date (for every reference date); whenever the trimmed,
lowercased expression is not in the relative table it falls back to
absolute `YYYY-MM-DD` parsing (which yields `none` on failure); and the
two concrete evaluations of the spec hold, including the case-insensitive
`TODAY`. -/
theorem c8_resolve_date_table (ref : Date) :
    resolve_date "today".data ref = some ref ∧
    resolve_date "tomorrow".data ref = some (addDays ref 1) ∧
    resolve_date "yesterday".data ref = some (addDays ref (-1)) ∧
    resolve_date "in one week".data ref = some (addDays ref 7) ∧
    resolve_date "in two weeks".data ref = some (addDays ref 14) ∧
    (∀ l : List Char,
      RELATIVE_DATE_MAP.lookup (⟨lowerL (pyStripL l)⟩ : String) = none →
      resolve_date l ref = parseAbsoluteDate l) ∧
    resolve_date "in two weeks".data ⟨2025, 11, 12⟩ = some ⟨2025, 11, 26⟩ ∧
    resolve_date "TODAY".data ⟨2025, 11, 12⟩ = some ⟨2025, 11, 12⟩ := by
  refine ⟨rfl, rfl, rfl, rfl, rfl, ?_, by decide, by decide⟩
  intro l hl
  simp [resolve_date, hl]

/-- Witness for C8: a plain absolute date is not a relative phrase and
goes through absolute parsing. -/
theorem c8_witness :
    resolve_date "2025-01-02".data ⟨2025, 11, 12⟩ =
      parseAbsoluteDate "2025-01-02".data :=
  (c8_resolve_date_table ⟨2025, 11, 12⟩).2.2.2.2.2.1 "2025-01-02".data rfl

end MV
